import Mathlib

/-!
Verification development for the frame-deduplication core of the repository
(the function `extract_unique_frames` in `src/a.py` and its variant in
`src/app.py`, and the timestamp-label colour decision of
`convert_frames_to_pdf` in both files).

Modelling conventions:

* Frames are abstract (`F`), their downsampled grayscale projections are
  abstract (`G`); `toGray : F → G` models
  `cv2.resize(cv2.cvtColor(frame, COLOR_BGR2GRAY), (128, 72))`.
* The only use the code makes of the SSIM score is the Boolean test
  `ssim(gray, last_frame, data_range=gray.max()-gray.min()) < ssim_threshold`,
  so the model carries `below : G → G → Bool` with `below cur last = true`
  exactly when that comparison is true.  (Note the first argument is the
  current sampled frame, whose own pixel range supplies `data_range`; for a
  pair of identical constant frames that range is 0, skimage returns NaN,
  and `NaN < t` is false in Python, i.e. `below g g = false`.)
* The decoded stream is a `List (Option F)`: `some f` is a successful
  `cap.read()`, `none` is a failed read (`ret == False`), at which the loop
  breaks.  A fully healthy stream is `frames.map some`.
* `cv2.imwrite` is modelled by an oracle `writeOk : Nat → Bool` keyed by the
  `frame_number` appearing in the file name; the Python code ignores the
  return value of `imwrite`, so a failed write only means the image is
  missing from the sink (`written`), nothing else.
* `st.error` (UI error reporting) is modelled by the `reported` flag of the
  result.  `extract_unique_frames` in `src/app.py` contains no error
  reporting call at all, so its flag is constantly `false`.
* `src/app.py` computes `frame_number // fps` with the raw reported fps and
  no fallback; with fps = 0 Python raises `ZeroDivisionError`, so the app
  variant is embedded in `Except Unit`.
* The stride is `frame_number % n`; Python raises for `n = 0`, so theorems
  about the stride carry `0 < n` where it matters.
-/

set_option maxRecDepth 8000

namespace YTPdf

/-- Result of one run of `extract_unique_frames`: the observable trace of the
Python function.  `reported` records whether an error was reported to the UI
(`st.error`), `timestamps` is the returned list of
`(frame_number, timestamp_seconds)` pairs, and `written` records the
successful `cv2.imwrite` calls as `(index, timestamp, image)` triples. -/
structure DedupResult (F : Type) where
  reported : Bool
  timestamps : List (Nat × Nat)
  written : List (Nat × Nat × F)
deriving DecidableEq

/-- The mutable loop state of `extract_unique_frames` (both variants):
`last_frame` is the grayscale downsampled previous sampled frame,
`saved_frame` the pending candidate image, `frame_number` the index of the
next frame to be read, `last_saved_frame_number` the marker initialised to
`-1` (hence an `Int`), `timestamps` the accumulated return value and
`written` the accumulated successful image writes. -/
structure DedupState (F G : Type) where
  last_frame : Option G
  saved_frame : Option F
  frame_number : Nat
  last_saved_frame_number : Int
  timestamps : List (Nat × Nat)
  written : List (Nat × Nat × F)
deriving DecidableEq

/-- `last_frame = None`, `saved_frame = None`, `frame_number = 0`,
`last_saved_frame_number = -1`, `timestamps = []` (src/a.py lines 150-154,
src/app.py lines 63-67). -/
def initState {F G : Type} : DedupState F G :=
  { last_frame := none
    saved_frame := none
    frame_number := 0
    last_saved_frame_number := -1
    timestamps := []
    written := [] }

section Core

variable {F G : Type}
variable (toGray : F → G) (below : G → G → Bool) (writeOk : Nat → Bool)

/-- One iteration of the `while` loop of `extract_unique_frames` in
`src/a.py` (lines 161-190) on a successfully decoded `frame`.  The branch
structure mirrors the source: stride test, first-frame seed, similarity
test, spacing guard, emission of the candidate image under the current
frame number, and the unconditional candidate/marker updates in the
dissimilar branch. -/
def stepA (n fps : Nat) (s : DedupState F G) (frame : F) : DedupState F G :=
  if s.frame_number % n = 0 then
    let gray_frame := toGray frame
    match s.last_frame with
    | some lf =>
      if below gray_frame lf then
        let s1 :=
          match s.saved_frame with
          | some sf =>
            if (s.frame_number : Int) - s.last_saved_frame_number > (fps : Int) then
              { s with
                timestamps := s.timestamps ++ [(s.frame_number, s.frame_number / fps)]
                written :=
                  if writeOk s.frame_number then
                    s.written ++ [(s.frame_number, s.frame_number / fps, sf)]
                  else s.written }
            else s
          | none => s
        { s1 with
          saved_frame := some frame
          last_saved_frame_number := (s.frame_number : Int)
          last_frame := some gray_frame
          frame_number := s.frame_number + 1 }
      else
        { s with
          saved_frame := some frame
          last_frame := some gray_frame
          frame_number := s.frame_number + 1 }
    | none =>
      { s with
        timestamps := s.timestamps ++ [(s.frame_number, s.frame_number / fps)]
        written :=
          if writeOk s.frame_number then
            s.written ++ [(s.frame_number, s.frame_number / fps, frame)]
          else s.written
        saved_frame := some frame
        last_saved_frame_number := (s.frame_number : Int)
        last_frame := some gray_frame
        frame_number := s.frame_number + 1 }
  else
    { s with frame_number := s.frame_number + 1 }

/-- The read loop of `src/a.py` (lines 156-190): read results are consumed in
order and the loop breaks at the first failed read (`ret == False`). -/
def runA (n fps : Nat) (s : DedupState F G) : List (Option F) → DedupState F G
  | [] => s
  | none :: _ => s
  | some f :: rest => runA n fps (stepA toGray below writeOk n fps s f) rest

/-- The post-loop flush of `src/a.py` (lines 192-197): if a candidate exists
and `last_saved_frame_number < frame_number - fps`, the candidate image is
written and `(frame_number, frame_number // fps)` appended. -/
def flushA (fps : Nat) (s : DedupState F G) : DedupState F G :=
  match s.saved_frame with
  | some sf =>
    if s.last_saved_frame_number < (s.frame_number : Int) - (fps : Int) then
      { s with
        timestamps := s.timestamps ++ [(s.frame_number, s.frame_number / fps)]
        written :=
          if writeOk s.frame_number then
            s.written ++ [(s.frame_number, s.frame_number / fps, sf)]
          else s.written }
    else s
  | none => s

/-- `fps = int(cap.get(cv2.CAP_PROP_FPS)); if fps == 0: fps = 30`
(src/a.py lines 146-148). -/
def fpsA (fps0 : Nat) : Nat :=
  if fps0 = 0 then 30 else fps0

/-- `extract_unique_frames` of `src/a.py` (lines 138-200).  `opened` models
`cap.isOpened()` right after `cv2.VideoCapture`; on failure the function
reports an error (`st.error`) and returns `[]` without iterating.  `fps0`
is the raw reported frame rate, defaulted to 30 when zero. -/
def extract_unique_frames_a (opened : Bool) (fps0 n : Nat)
    (stream : List (Option F)) : DedupResult F :=
  if opened then
    let fps := fpsA fps0
    let final := flushA writeOk fps (runA toGray below writeOk n fps initState stream)
    { reported := false, timestamps := final.timestamps, written := final.written }
  else
    { reported := true, timestamps := [], written := [] }

/-- One iteration of the `while` loop of `extract_unique_frames` in
`src/app.py` (lines 69-108).  Differences from `src/a.py`: the seed branch
does not set `saved_frame` (src/app.py lines 97-104 have no
`saved_frame = frame`), and every emission evaluates
`frame_number // fps` with the raw fps, raising `ZeroDivisionError`
(modelled as `Except.error ()`) when `fps = 0`. -/
def stepApp (n fps : Nat) (s : DedupState F G) (frame : F) :
    Except Unit (DedupState F G) :=
  if s.frame_number % n = 0 then
    let gray := toGray frame
    match s.last_frame with
    | some lf =>
      if below gray lf then
        match s.saved_frame with
        | some sf =>
          if (s.frame_number : Int) - s.last_saved_frame_number > (fps : Int) then
            if fps = 0 then Except.error () else
            Except.ok
              { s with
                timestamps := s.timestamps ++ [(s.frame_number, s.frame_number / fps)]
                written :=
                  if writeOk s.frame_number then
                    s.written ++ [(s.frame_number, s.frame_number / fps, sf)]
                  else s.written
                saved_frame := some frame
                last_saved_frame_number := (s.frame_number : Int)
                last_frame := some gray
                frame_number := s.frame_number + 1 }
          else
            Except.ok
              { s with
                saved_frame := some frame
                last_saved_frame_number := (s.frame_number : Int)
                last_frame := some gray
                frame_number := s.frame_number + 1 }
        | none =>
          Except.ok
            { s with
              saved_frame := some frame
              last_saved_frame_number := (s.frame_number : Int)
              last_frame := some gray
              frame_number := s.frame_number + 1 }
      else
        Except.ok
          { s with
            saved_frame := some frame
            last_frame := some gray
            frame_number := s.frame_number + 1 }
    | none =>
      if fps = 0 then Except.error () else
      Except.ok
        { s with
          timestamps := s.timestamps ++ [(s.frame_number, s.frame_number / fps)]
          written :=
            if writeOk s.frame_number then
              s.written ++ [(s.frame_number, s.frame_number / fps, frame)]
            else s.written
          last_saved_frame_number := (s.frame_number : Int)
          last_frame := some gray
          frame_number := s.frame_number + 1 }
  else
    Except.ok { s with frame_number := s.frame_number + 1 }

/-- The read loop of `src/app.py` (lines 69-108). -/
def runApp (n fps : Nat) (s : DedupState F G) :
    List (Option F) → Except Unit (DedupState F G)
  | [] => Except.ok s
  | none :: _ => Except.ok s
  | some f :: rest =>
    match stepApp toGray below writeOk n fps s f with
    | Except.error e => Except.error e
    | Except.ok s2 => runApp n fps s2 rest

/-- `extract_unique_frames` of `src/app.py` (lines 60-111).  There is no
`isOpened` guard and no error report: if the capture is not opened the
`while` loop never runs and `[]` is returned silently.  The raw fps is used
directly (no zero fallback), and there is no post-loop flush. -/
def extract_unique_frames_app (opened : Bool) (fps0 n : Nat)
    (stream : List (Option F)) : Except Unit (DedupResult F) :=
  if opened then
    match runApp toGray below writeOk n fps0 initState stream with
    | Except.error e => Except.error e
    | Except.ok final =>
      Except.ok { reported := false, timestamps := final.timestamps, written := final.written }
  else
    Except.ok { reported := false, timestamps := [], written := [] }

end Core

/-- The timestamp-label colour decision of `convert_frames_to_pdf` in
`src/a.py` (lines 233-236): white `(255,255,255)` when the sampled region
mean is below 64, black `(0,0,0)` otherwise. -/
def label_text_color_a (mean_pixel_value : Nat) : Nat × Nat × Nat :=
  if mean_pixel_value < 64 then (255, 255, 255) else (0, 0, 0)

/-- The timestamp-label colour decision of `convert_frames_to_pdf` in
`src/app.py` (line 135): `pdf.set_text_color(255, 255, 255 if mean_pixel < 64 else 0)`
binds the conditional to the third argument only, so the colour is
`(255,255,255)` when the mean is below 64 and `(255,255,0)` (yellow)
otherwise. -/
def label_text_color_app (mean_pixel : Nat) : Nat × Nat × Nat :=
  (255, 255, if mean_pixel < 64 then 255 else 0)

/-- Consecutive timeline entries have strictly increasing indices separated by
more than `fps` frames. -/
def gapsGt (fps : Nat) : List (Nat × Nat) → Bool
  | p :: q :: rest => decide (p.1 + fps < q.1) && gapsGt fps (q :: rest)
  | _ => true

/-- `gapsGt` lifted to the fallible app variant (vacuous on an exception). -/
def gapsGtE {F : Type} (fps : Nat) : Except Unit (DedupResult F) → Bool
  | Except.error _ => true
  | Except.ok r => gapsGt fps r.timestamps

/-- Every timeline index is either a sampled index (`i % n = 0`) or the
stream-end index `N` used by the flush entry. -/
def allSampledOrEnd (n N : Nat) (l : List (Nat × Nat)) : Bool :=
  l.all fun p => p.1 % n == 0 || p.1 == N

/-- Every timeline index is a sampled index. -/
def allSampled (n : Nat) (l : List (Nat × Nat)) : Bool :=
  l.all fun p => p.1 % n == 0

/-- `allSampled` lifted to the fallible app variant. -/
def allSampledE {F : Type} (n : Nat) : Except Unit (DedupResult F) → Bool
  | Except.error _ => true
  | Except.ok r => allSampled n r.timestamps

/-- The deduplication-relevant part of the state: everything except the
image sink. -/
def coreOf {F G : Type} (s : DedupState F G) :
    Option G × Option F × Nat × Int × List (Nat × Nat) :=
  (s.last_frame, s.saved_frame, s.frame_number, s.last_saved_frame_number, s.timestamps)

/-- Loop invariant of both variants: the timeline has well-spaced strictly
increasing indices, every recorded index is at most the
`last_saved_frame_number` marker, the marker is below the next frame
number, and before the first sampled frame the timeline is empty. -/
def InvA {F G : Type} (fps : Nat) (s : DedupState F G) : Prop :=
  gapsGt fps s.timestamps = true ∧
  (∀ p ∈ s.timestamps, (p.1 : Int) ≤ s.last_saved_frame_number) ∧
  s.last_saved_frame_number < (s.frame_number : Int) ∧
  (s.last_frame = none → s.timestamps = [])

/-- `coreOf` lifted to the fallible app variant. -/
def coreOfE {F G : Type} :
    Except Unit (DedupState F G) →
      Except Unit (Option G × Option F × Nat × Int × List (Nat × Nat))
  | Except.error e => Except.error e
  | Except.ok s => Except.ok (coreOf s)

/-- The returned timeline of the fallible app variant. -/
def timestampsE {F : Type} :
    Except Unit (DedupResult F) → Except Unit (List (Nat × Nat))
  | Except.error e => Except.error e
  | Except.ok r => Except.ok r.timestamps

/-- Simulation relation between the loop states of the `src/a.py` and
`src/app.py` variants run side by side on the same stream: all
deduplication state coincides except possibly `saved_frame`, which in the
app variant stays `none` between the seed (app's seed branch does not set
it) and the next sampled frame; in that window the marker equals the seed
index `v` and the next sampled index is at most `v + n` away. -/
def SimR {F G : Type} (n : Nat) (sA sApp : DedupState F G) : Prop :=
  sA.last_frame = sApp.last_frame ∧
  sA.frame_number = sApp.frame_number ∧
  sA.last_saved_frame_number = sApp.last_saved_frame_number ∧
  sA.timestamps = sApp.timestamps ∧
  sA.written = sApp.written ∧
  (sA.saved_frame = sApp.saved_frame ∨
    (sApp.saved_frame = none ∧
      ∃ v : Nat, sA.last_saved_frame_number = (v : Int) ∧ v % n = 0 ∧
        v < sA.frame_number ∧ sA.frame_number ≤ v + n)) ∧
  (sApp.last_frame = none → sApp.saved_frame = none)

/-- A concrete similarity oracle on `Nat`-valued frames: dissimilar exactly
when the values differ. -/
def belowNe (a b : Nat) : Bool := a != b

/-- A concrete similarity oracle on `Nat`-valued frames: dissimilar exactly
when the values fall in different blocks of width `w`. -/
def belowBlk (w a b : Nat) : Bool := a / w != b / w

/-- A persistence oracle for which every `cv2.imwrite` succeeds. -/
def allWr (_ : Nat) : Bool := true

/-- A persistence oracle for which every `cv2.imwrite` fails. -/
def noWr (_ : Nat) : Bool := false

/-- A healthy stream of `k` frames whose image value equals their index. -/
def ramp (k : Nat) : List (Option Nat) := (List.range k).map some

/-- A healthy stream of `k` identical frames of value 0. -/
def constStream (k : Nat) : List (Option Nat) := (List.replicate k 0).map some

section StepLemmas

variable {F G : Type}
variable (toGray : F → G) (below : G → G → Bool) (writeOk : Nat → Bool)
variable (n fps : Nat) (s : DedupState F G) (f : F)

lemma stepA_not_sampled (h : ¬ s.frame_number % n = 0) :
    stepA toGray below writeOk n fps s f = { s with frame_number := s.frame_number + 1 } := by
  simp [stepA, h]

lemma stepA_seed (h0 : s.frame_number % n = 0) (h1 : s.last_frame = none) :
    stepA toGray below writeOk n fps s f =
      { s with
        timestamps := s.timestamps ++ [(s.frame_number, s.frame_number / fps)]
        written :=
          if writeOk s.frame_number then
            s.written ++ [(s.frame_number, s.frame_number / fps, f)]
          else s.written
        saved_frame := some f
        last_saved_frame_number := (s.frame_number : Int)
        last_frame := some (toGray f)
        frame_number := s.frame_number + 1 } := by
  simp [stepA, h0, h1]

lemma stepA_sim {lf : G} (h0 : s.frame_number % n = 0) (h1 : s.last_frame = some lf)
    (hb : below (toGray f) lf = false) :
    stepA toGray below writeOk n fps s f =
      { s with
        saved_frame := some f
        last_frame := some (toGray f)
        frame_number := s.frame_number + 1 } := by
  simp [stepA, h0, h1, hb]

lemma stepA_dis_none {lf : G} (h0 : s.frame_number % n = 0) (h1 : s.last_frame = some lf)
    (hb : below (toGray f) lf = true) (hsv : s.saved_frame = none) :
    stepA toGray below writeOk n fps s f =
      { s with
        saved_frame := some f
        last_saved_frame_number := (s.frame_number : Int)
        last_frame := some (toGray f)
        frame_number := s.frame_number + 1 } := by
  simp [stepA, h0, h1, hb, hsv]

lemma stepA_dis_noGap {lf : G} {sf : F} (h0 : s.frame_number % n = 0)
    (h1 : s.last_frame = some lf) (hb : below (toGray f) lf = true)
    (hsv : s.saved_frame = some sf)
    (hgap : ¬ ((s.frame_number : Int) - s.last_saved_frame_number > (fps : Int))) :
    stepA toGray below writeOk n fps s f =
      { s with
        saved_frame := some f
        last_saved_frame_number := (s.frame_number : Int)
        last_frame := some (toGray f)
        frame_number := s.frame_number + 1 } := by
  simp [stepA, h0, h1, hb, hsv, hgap]

lemma stepA_dis_emit {lf : G} {sf : F} (h0 : s.frame_number % n = 0)
    (h1 : s.last_frame = some lf) (hb : below (toGray f) lf = true)
    (hsv : s.saved_frame = some sf)
    (hgap : (s.frame_number : Int) - s.last_saved_frame_number > (fps : Int)) :
    stepA toGray below writeOk n fps s f =
      { s with
        timestamps := s.timestamps ++ [(s.frame_number, s.frame_number / fps)]
        written :=
          if writeOk s.frame_number then
            s.written ++ [(s.frame_number, s.frame_number / fps, sf)]
          else s.written
        saved_frame := some f
        last_saved_frame_number := (s.frame_number : Int)
        last_frame := some (toGray f)
        frame_number := s.frame_number + 1 } := by
  simp [stepA, h0, h1, hb, hsv, hgap]

lemma stepApp_not_sampled (h : ¬ s.frame_number % n = 0) :
    stepApp toGray below writeOk n fps s f =
      Except.ok { s with frame_number := s.frame_number + 1 } := by
  simp [stepApp, h]

lemma stepApp_seed_err (h0 : s.frame_number % n = 0) (h1 : s.last_frame = none)
    (hz : fps = 0) :
    stepApp toGray below writeOk n fps s f = Except.error () := by
  simp [stepApp, h0, h1, hz]

lemma stepApp_seed (h0 : s.frame_number % n = 0) (h1 : s.last_frame = none)
    (hz : fps ≠ 0) :
    stepApp toGray below writeOk n fps s f =
      Except.ok
        { s with
          timestamps := s.timestamps ++ [(s.frame_number, s.frame_number / fps)]
          written :=
            if writeOk s.frame_number then
              s.written ++ [(s.frame_number, s.frame_number / fps, f)]
            else s.written
          last_saved_frame_number := (s.frame_number : Int)
          last_frame := some (toGray f)
          frame_number := s.frame_number + 1 } := by
  simp [stepApp, h0, h1, hz]

lemma stepApp_sim {lf : G} (h0 : s.frame_number % n = 0) (h1 : s.last_frame = some lf)
    (hb : below (toGray f) lf = false) :
    stepApp toGray below writeOk n fps s f =
      Except.ok
        { s with
          saved_frame := some f
          last_frame := some (toGray f)
          frame_number := s.frame_number + 1 } := by
  simp [stepApp, h0, h1, hb]

lemma stepApp_dis_none {lf : G} (h0 : s.frame_number % n = 0) (h1 : s.last_frame = some lf)
    (hb : below (toGray f) lf = true) (hsv : s.saved_frame = none) :
    stepApp toGray below writeOk n fps s f =
      Except.ok
        { s with
          saved_frame := some f
          last_saved_frame_number := (s.frame_number : Int)
          last_frame := some (toGray f)
          frame_number := s.frame_number + 1 } := by
  simp [stepApp, h0, h1, hb, hsv]

lemma stepApp_dis_noGap {lf : G} {sf : F} (h0 : s.frame_number % n = 0)
    (h1 : s.last_frame = some lf) (hb : below (toGray f) lf = true)
    (hsv : s.saved_frame = some sf)
    (hgap : ¬ ((s.frame_number : Int) - s.last_saved_frame_number > (fps : Int))) :
    stepApp toGray below writeOk n fps s f =
      Except.ok
        { s with
          saved_frame := some f
          last_saved_frame_number := (s.frame_number : Int)
          last_frame := some (toGray f)
          frame_number := s.frame_number + 1 } := by
  simp [stepApp, h0, h1, hb, hsv, hgap]

lemma stepApp_dis_emit_err {lf : G} {sf : F} (h0 : s.frame_number % n = 0)
    (h1 : s.last_frame = some lf) (hb : below (toGray f) lf = true)
    (hsv : s.saved_frame = some sf)
    (hgap : (s.frame_number : Int) - s.last_saved_frame_number > (fps : Int))
    (hz : fps = 0) :
    stepApp toGray below writeOk n fps s f = Except.error () := by
  simp [stepApp, h0, h1, hb, hsv, hgap, hz]
  omega

lemma stepApp_dis_emit {lf : G} {sf : F} (h0 : s.frame_number % n = 0)
    (h1 : s.last_frame = some lf) (hb : below (toGray f) lf = true)
    (hsv : s.saved_frame = some sf)
    (hgap : (s.frame_number : Int) - s.last_saved_frame_number > (fps : Int))
    (hz : fps ≠ 0) :
    stepApp toGray below writeOk n fps s f =
      Except.ok
        { s with
          timestamps := s.timestamps ++ [(s.frame_number, s.frame_number / fps)]
          written :=
            if writeOk s.frame_number then
              s.written ++ [(s.frame_number, s.frame_number / fps, sf)]
            else s.written
          saved_frame := some f
          last_saved_frame_number := (s.frame_number : Int)
          last_frame := some (toGray f)
          frame_number := s.frame_number + 1 } := by
  simp [stepApp, h0, h1, hb, hsv, hgap, hz]

lemma stepA_frame_number :
    (stepA toGray below writeOk n fps s f).frame_number = s.frame_number + 1 := by
  simp only [stepA]
  repeat' split
  all_goals rfl

end StepLemmas

section RunLemmas

variable {F G : Type}
variable (toGray : F → G) (below : G → G → Bool) (writeOk : Nat → Bool)

lemma runA_map_cons (n fps : Nat) (s : DedupState F G) (f : F) (rest : List (Option F)) :
    runA toGray below writeOk n fps s (some f :: rest) =
      runA toGray below writeOk n fps (stepA toGray below writeOk n fps s f) rest := rfl

lemma runA_frame_number (n fps : Nat) (l : List F) :
    ∀ s : DedupState F G,
      (runA toGray below writeOk n fps s (l.map some)).frame_number =
        s.frame_number + l.length := by
  induction l with
  | nil => intro s; simp [runA]
  | cons f t ih =>
    intro s
    rw [List.map_cons, runA_map_cons, ih, stepA_frame_number]
    simp
    all_goals omega

lemma gapsGt_append (fps : Nat) (x : Nat × Nat) (l : List (Nat × Nat))
    (h : gapsGt fps l = true) (hlast : ∀ p ∈ l, p.1 + fps < x.1) :
    gapsGt fps (l ++ [x]) = true := by
  induction l with
  | nil => rfl
  | cons a t ih =>
    cases t with
    | nil =>
      simp only [List.nil_append, List.cons_append, gapsGt, Bool.and_eq_true,
        decide_eq_true_iff]
      exact ⟨hlast a (by simp), trivial⟩
    | cons b t2 =>
      simp only [gapsGt, Bool.and_eq_true, decide_eq_true_iff] at h
      have ht : gapsGt fps ((b :: t2) ++ [x]) = true :=
        ih h.2 (fun p hp => hlast p (List.mem_cons_of_mem a hp))
      simp only [List.cons_append, gapsGt, Bool.and_eq_true, decide_eq_true_iff]
      exact ⟨h.1, by simpa using ht⟩

lemma initState_inv (fps : Nat) : InvA fps (initState : DedupState F G) := by
  refine ⟨rfl, by simp [initState], ?_, fun _ => rfl⟩
  show (-1 : Int) < ((0 : Nat) : Int)
  omega

lemma stepA_inv (n fps : Nat) (s : DedupState F G) (f : F) (hInv : InvA fps s) :
    InvA fps (stepA toGray below writeOk n fps s f) := by
  obtain ⟨hg, hle, hlt, hemp⟩ := hInv
  by_cases h0 : s.frame_number % n = 0
  · cases h1 : s.last_frame with
    | none =>
      rw [stepA_seed toGray below writeOk n fps s f h0 h1]
      have hts : s.timestamps = [] := hemp h1
      refine ⟨by simp [hts, gapsGt], ?_, ?_, by simp⟩
      · intro p hp
        simp [hts] at hp
        simp [hp]
      · simp
    | some lf =>
      cases hb : below (toGray f) lf with
      | false =>
        rw [stepA_sim toGray below writeOk n fps s f h0 h1 hb]
        refine ⟨hg, hle, by simp; all_goals omega, by simp⟩
      | true =>
        cases hsv : s.saved_frame with
        | none =>
          rw [stepA_dis_none toGray below writeOk n fps s f h0 h1 hb hsv]
          refine ⟨hg, ?_, by simp, by simp⟩
          intro p hp
          have := hle p hp
          simp
          all_goals omega
        | some sf =>
          by_cases hgap : (s.frame_number : Int) - s.last_saved_frame_number > (fps : Int)
          · rw [stepA_dis_emit toGray below writeOk n fps s f h0 h1 hb hsv hgap]
            refine ⟨?_, ?_, by simp, by simp⟩
            · apply gapsGt_append fps _ _ hg
              intro p hp
              have := hle p hp
              simp
              all_goals omega
            · intro p hp
              simp only [List.mem_append, List.mem_singleton] at hp
              rcases hp with hp | hp
              · have := hle p hp
                simp
                all_goals omega
              · simp [hp]
          · rw [stepA_dis_noGap toGray below writeOk n fps s f h0 h1 hb hsv hgap]
            refine ⟨hg, ?_, by simp, by simp⟩
            intro p hp
            have := hle p hp
            simp
            all_goals omega
  · rw [stepA_not_sampled toGray below writeOk n fps s f h0]
    refine ⟨hg, hle, by simp; all_goals omega, ?_⟩
    intro h
    exact hemp h

lemma runA_inv (n fps : Nat) (stream : List (Option F)) :
    ∀ s : DedupState F G, InvA fps s →
      InvA fps (runA toGray below writeOk n fps s stream) := by
  induction stream with
  | nil => intro s h; exact h
  | cons x rest ih =>
    intro s h
    cases x with
    | none => exact h
    | some f => exact ih _ (stepA_inv toGray below writeOk n fps s f h)

lemma flushA_inv_gaps (fps : Nat) (s : DedupState F G) (hInv : InvA fps s) :
    gapsGt fps (flushA writeOk fps s).timestamps = true := by
  obtain ⟨hg, hle, hlt, hemp⟩ := hInv
  cases hsv : s.saved_frame with
  | none => simpa [flushA, hsv] using hg
  | some sf =>
    by_cases hc : s.last_saved_frame_number < (s.frame_number : Int) - (fps : Int)
    · simp only [flushA, hsv, hc, if_pos]
      apply gapsGt_append fps _ _ hg
      intro p hp
      have := hle p hp
      simp
      all_goals omega
    · simpa [flushA, hsv, hc] using hg

lemma stepApp_inv (n fps : Nat) (s s2 : DedupState F G) (f : F) (hInv : InvA fps s)
    (hok : stepApp toGray below writeOk n fps s f = Except.ok s2) :
    InvA fps s2 := by
  obtain ⟨hg, hle, hlt, hemp⟩ := hInv
  by_cases h0 : s.frame_number % n = 0
  · cases h1 : s.last_frame with
    | none =>
      by_cases hz : fps = 0
      · rw [stepApp_seed_err toGray below writeOk n fps s f h0 h1 hz] at hok
        cases hok
      · rw [stepApp_seed toGray below writeOk n fps s f h0 h1 hz] at hok
        cases hok
        have hts : s.timestamps = [] := hemp h1
        refine ⟨by simp [hts, gapsGt], ?_, ?_, by simp⟩
        · intro p hp
          simp [hts] at hp
          simp [hp]
        · simp
    | some lf =>
      cases hb : below (toGray f) lf with
      | false =>
        rw [stepApp_sim toGray below writeOk n fps s f h0 h1 hb] at hok
        cases hok
        refine ⟨hg, hle, by simp; all_goals omega, by simp⟩
      | true =>
        cases hsv : s.saved_frame with
        | none =>
          rw [stepApp_dis_none toGray below writeOk n fps s f h0 h1 hb hsv] at hok
          cases hok
          refine ⟨hg, ?_, by simp, by simp⟩
          intro p hp
          have := hle p hp
          simp
          all_goals omega
        | some sf =>
          by_cases hgap : (s.frame_number : Int) - s.last_saved_frame_number > (fps : Int)
          · by_cases hz : fps = 0
            · rw [stepApp_dis_emit_err toGray below writeOk n fps s f h0 h1 hb hsv hgap hz]
                at hok
              cases hok
            · rw [stepApp_dis_emit toGray below writeOk n fps s f h0 h1 hb hsv hgap hz]
                at hok
              cases hok
              refine ⟨?_, ?_, by simp, by simp⟩
              · apply gapsGt_append fps _ _ hg
                intro p hp
                have := hle p hp
                simp
                all_goals omega
              · intro p hp
                simp only [List.mem_append, List.mem_singleton] at hp
                rcases hp with hp | hp
                · have := hle p hp
                  simp
                  all_goals omega
                · simp [hp]
          · rw [stepApp_dis_noGap toGray below writeOk n fps s f h0 h1 hb hsv hgap] at hok
            cases hok
            refine ⟨hg, ?_, by simp, by simp⟩
            intro p hp
            have := hle p hp
            simp
            all_goals omega
  · rw [stepApp_not_sampled toGray below writeOk n fps s f h0] at hok
    cases hok
    refine ⟨hg, hle, by simp; all_goals omega, ?_⟩
    intro h
    exact hemp h

lemma runApp_inv (n fps : Nat) (stream : List (Option F)) :
    ∀ s s2 : DedupState F G, InvA fps s →
      runApp toGray below writeOk n fps s stream = Except.ok s2 → InvA fps s2 := by
  induction stream with
  | nil =>
    intro s s2 h hok
    cases hok
    exact h
  | cons x rest ih =>
    intro s s2 h hok
    cases x with
    | none =>
      cases hok
      exact h
    | some f =>
      simp only [runApp] at hok
      cases hstep : stepApp toGray below writeOk n fps s f with
      | error e =>
        rw [hstep] at hok
        cases hok
      | ok s1 =>
        rw [hstep] at hok
        exact ih s1 s2 (stepApp_inv toGray below writeOk n fps s s1 f h hstep) hok

end RunLemmas

section BreakLemmas

variable {F G : Type}
variable (toGray : F → G) (below : G → G → Bool) (writeOk : Nat → Bool)

lemma runA_break_at_none (n fps : Nat) (l : List F) (rest : List (Option F)) :
    ∀ s : DedupState F G,
      runA toGray below writeOk n fps s (l.map some ++ none :: rest) =
        runA toGray below writeOk n fps s (l.map some) := by
  induction l with
  | nil => intro s; rfl
  | cons f t ih =>
    intro s
    simp only [List.map_cons, List.cons_append, runA]
    exact ih _

lemma runApp_break_at_none (n fps : Nat) (l : List F) (rest : List (Option F)) :
    ∀ s : DedupState F G,
      runApp toGray below writeOk n fps s (l.map some ++ none :: rest) =
        runApp toGray below writeOk n fps s (l.map some) := by
  induction l with
  | nil => intro s; rfl
  | cons f t ih =>
    intro s
    simp only [List.map_cons, List.cons_append, runApp]
    cases hstep : stepApp toGray below writeOk n fps s f with
    | error e => simp [hstep]
    | ok s2 =>
      simp only [hstep]
      exact ih s2

end BreakLemmas

/-- Claim C1: for every input stream, the Timeline returned by
`extract_unique_frames` has strictly increasing KeptFrame indices and every
two consecutive kept indices are separated by strictly more than
`frame_rate` frames (a gap of exactly `frame_rate` never emits, since both
the in-loop spacing guard and the flush guard use strict comparisons).
This holds for the `src/a.py` variant (with its effective, zero-defaulted
frame rate) across all entries including the seed and the flush entry, and
for every non-raising run of the `src/app.py` variant. -/
theorem claim1_spacing {F G : Type} (toGray : F → G) (below : G → G → Bool)
    (writeOk : Nat → Bool) (opened : Bool) (fps0 n : Nat) (stream : List (Option F)) :
    gapsGt (fpsA fps0)
        (extract_unique_frames_a toGray below writeOk opened fps0 n stream).timestamps
      = true ∧
    gapsGtE fps0
        (extract_unique_frames_app toGray below writeOk opened fps0 n stream)
      = true := by
  constructor
  · by_cases hop : opened
    · have hrun := runA_inv toGray below writeOk n (fpsA fps0) stream initState
        (initState_inv (fpsA fps0))
      have := flushA_inv_gaps writeOk (fpsA fps0)
        (runA toGray below writeOk n (fpsA fps0) initState stream) hrun
      simpa [extract_unique_frames_a, hop] using this
    · simp [extract_unique_frames_a, hop, gapsGt]
  · by_cases hop : opened
    · simp only [extract_unique_frames_app, hop, if_pos]
      cases hrun : runApp toGray below writeOk n fps0 initState stream with
      | error e => simp [gapsGtE]
      | ok final =>
        have := runApp_inv toGray below writeOk n fps0 stream initState final
          (initState_inv fps0) hrun
        simpa [gapsGtE] using this.1
    · simp [extract_unique_frames_app, hop, gapsGtE, gapsGt]

/-- Claim C2 counterexample: with 34 frames whose image value equals their
index (blocks of 33 identical-looking frames, so the only scene change is
at index 33), the `src/a.py` variant emits a KeptFrame whose recorded index
is 33 — the current triggering frame — while the image actually written is
the Candidate (the frame of value 30, i.e. the frame from index 30), and
`last_saved_frame_number` is updated to 33, not to the Candidate's index.
This refutes the claim that the emitted KeptFrame carries the Candidate's
own index. -/
theorem claim2_counterexample :
    extract_unique_frames_a id (belowBlk 33) allWr true 30 3 (ramp 34) =
      { reported := false
        timestamps := [(0, 0), (33, 1)]
        written := [(0, 0, 0), (33, 1, 30)] } ∧
    (runA id (belowBlk 33) allWr 3 30 initState (ramp 34)).last_saved_frame_number = 33 :=
  ⟨rfl, rfl⟩

/-- Claim C2 amended: when the dissimilar branch fires with a Candidate and
the spacing guard passes, the Candidate's image `sf` is written, but the
Timeline entry records the current triggering frame's index
`frame_number` (and its timestamp), and `last_saved_frame_number` is
updated to the current index; the current frame becomes the new
Candidate. -/
theorem claim2_amended {F G : Type} (toGray : F → G) (below : G → G → Bool)
    (writeOk : Nat → Bool) (n fps : Nat) (s : DedupState F G) (f : F) (lf : G) (sf : F)
    (h0 : s.frame_number % n = 0) (h1 : s.last_frame = some lf)
    (hb : below (toGray f) lf = true) (hsv : s.saved_frame = some sf)
    (hgap : (s.frame_number : Int) - s.last_saved_frame_number > (fps : Int)) :
    (stepA toGray below writeOk n fps s f).timestamps
        = s.timestamps ++ [(s.frame_number, s.frame_number / fps)] ∧
    (stepA toGray below writeOk n fps s f).written
        = (if writeOk s.frame_number then
            s.written ++ [(s.frame_number, s.frame_number / fps, sf)]
          else s.written) ∧
    (stepA toGray below writeOk n fps s f).last_saved_frame_number = (s.frame_number : Int) ∧
    (stepA toGray below writeOk n fps s f).saved_frame = some f := by
  rw [stepA_dis_emit toGray below writeOk n fps s f h0 h1 hb hsv hgap]
  exact ⟨rfl, rfl, rfl, rfl⟩

/-- Claim C2 amended, witnessed at the concrete emission state of the
34-frame counterexample stream (current index 33, Candidate image 30). -/
theorem claim2_witness :
    (stepA id (belowBlk 33) allWr 3 30
        ⟨some 30, some 30, 33, 0, [(0, 0)], [(0, 0, 0)]⟩ 33).timestamps
        = [(0, 0), (33, 1)] ∧
    (stepA id (belowBlk 33) allWr 3 30
        ⟨some 30, some 30, 33, 0, [(0, 0)], [(0, 0, 0)]⟩ 33).written
        = [(0, 0, 0), (33, 1, 30)] ∧
    (stepA id (belowBlk 33) allWr 3 30
        ⟨some 30, some 30, 33, 0, [(0, 0)], [(0, 0, 0)]⟩ 33).last_saved_frame_number = 33 ∧
    (stepA id (belowBlk 33) allWr 3 30
        ⟨some 30, some 30, 33, 0, [(0, 0)], [(0, 0, 0)]⟩ 33).saved_frame = some 33 :=
  claim2_amended id (belowBlk 33) allWr 3 30
    ⟨some 30, some 30, 33, 0, [(0, 0)], [(0, 0, 0)]⟩ 33 30 30
    (by decide) rfl (by decide) rfl (by decide)

/-- Claim C3 counterexample: a 60-frame stream at 30 fps whose content
changes once, at index 30 (value blocks of width 30).  The change at
sampled index 30 fails the spacing guard (gap exactly 30), so nothing is
emitted there, but it still advances `last_saved_frame_number` to 30.
At stream end a Candidate exists (the frame of value 57) and 60 frames
(more than one frame-rate's worth) have elapsed since the last — and only —
emission at index 0, yet no flush entry is emitted, because the flush guard
compares against `last_saved_frame_number = 30`, not against the last
emission.  The returned Timeline is just the seed. -/
theorem claim3_counterexample :
    (extract_unique_frames_a id (belowBlk 30) allWr true 30 3 (ramp 60)).timestamps
        = [(0, 0)] ∧
    (runA id (belowBlk 30) allWr 3 30 initState (ramp 60)).saved_frame = some 57 ∧
    (runA id (belowBlk 30) allWr 3 30 initState (ramp 60)).last_saved_frame_number = 30 :=
  ⟨rfl, rfl, rfl⟩

/-- Claim C6: the adaptive label-contrast rule.  The `src/a.py` variant
follows it (white below mean 64, black at and above 64).  In `src/app.py`
the call `pdf.set_text_color(255, 255, 255 if mean_pixel < 64 else 0)`
binds the conditional to the blue channel only, so a bright label region
(mean at or above 64) yields yellow `(255, 255, 0)` instead of the
documented black — a code bug. -/
theorem claim6_label_contrast :
    label_text_color_a 0 = (255, 255, 255) ∧
    label_text_color_a 64 = (0, 0, 0) ∧
    label_text_color_a 255 = (0, 0, 0) ∧
    label_text_color_app 0 = (255, 255, 255) ∧
    label_text_color_app 64 = (255, 255, 0) ∧
    label_text_color_app 200 = (255, 255, 0) :=
  ⟨rfl, rfl, rfl, rfl, rfl, rfl⟩

/-- Claim C7: `src/a.py` defaults a reported frame rate of zero to 30 (its
behaviour with `fps0 = 0` is identical to its behaviour with `fps0 = 30`
on every stream), so no timestamp computation divides by zero there.
`src/app.py` has no such fallback: with a reported rate of zero and at
least one decodable frame, the seed emission evaluates
`frame_number // fps` and raises `ZeroDivisionError`. -/
theorem claim7_default_fps :
    (∀ (F G : Type) (toGray : F → G) (below : G → G → Bool) (writeOk : Nat → Bool)
        (opened : Bool) (n : Nat) (stream : List (Option F)),
      extract_unique_frames_a toGray below writeOk opened 0 n stream =
        extract_unique_frames_a toGray below writeOk opened 30 n stream) ∧
    extract_unique_frames_app id belowNe allWr true 0 3 [some 0] = Except.error () := by
  constructor
  · intro F G toGray below writeOk opened n stream
    rfl
  · rfl

/-- Claim C8 counterexample: on an unopenable input, the `src/app.py`
variant returns an empty Timeline silently — its `extract_unique_frames`
contains no error-reporting call, so the claim that `extract_unique_frames`
reports an error on open failure does not hold for this variant. -/
theorem claim8_counterexample :
    extract_unique_frames_app id belowNe allWr false 30 3 [some 0] =
      Except.ok { reported := false, timestamps := [], written := [] } :=
  rfl

/-- Claim C8 amended: on open failure `src/a.py` reports an error and
returns an empty Timeline without iterating, while `src/app.py` returns an
empty Timeline without reporting; in both variants a failed decode
mid-iteration behaves exactly as if the stream had ended there (the run on
the stream truncated at the first failed read is returned, never an
exception). -/
theorem claim8_amended {F G : Type} (toGray : F → G) (below : G → G → Bool)
    (writeOk : Nat → Bool) (fps0 n : Nat) (stream : List (Option F))
    (l : List F) (rest : List (Option F)) :
    (extract_unique_frames_a toGray below writeOk false fps0 n stream).reported = true ∧
    (extract_unique_frames_a toGray below writeOk false fps0 n stream).timestamps = [] ∧
    extract_unique_frames_app toGray below writeOk false fps0 n stream =
      Except.ok { reported := false, timestamps := [], written := [] } ∧
    extract_unique_frames_a toGray below writeOk true fps0 n (l.map some ++ none :: rest) =
      extract_unique_frames_a toGray below writeOk true fps0 n (l.map some) ∧
    extract_unique_frames_app toGray below writeOk true fps0 n (l.map some ++ none :: rest) =
      extract_unique_frames_app toGray below writeOk true fps0 n (l.map some) := by
  refine ⟨rfl, rfl, rfl, ?_, ?_⟩
  · simp [extract_unique_frames_a, runA_break_at_none]
  · simp [extract_unique_frames_app, runApp_break_at_none]

/-- Claim C9 counterexample: a single-frame stream whose seed image write
fails (the persistence sink accepts nothing).  The seed entry `(0, 0)`
still appears in the returned timestamps even though no image was written:
the code ignores the return value of `cv2.imwrite`, so a persistence
failure does not drop the KeptFrame from the returned Timeline. -/
theorem claim9_counterexample :
    extract_unique_frames_a id belowNe noWr true 30 3 [some 0] =
      { reported := false, timestamps := [(0, 0)], written := [] } :=
  rfl

/-- Claim C10 counterexample: on a 35-frame constant stream with identical
parameters (n = 3, fps = 30), the `src/a.py` variant returns the Timeline
`[(0,0), (35,1)]` (seed plus final flush) while the `src/app.py` variant
returns `[(0,0)]` (no flush exists there), so the two variants do not
return identical Timelines. -/
theorem claim10_counterexample :
    (extract_unique_frames_a id belowNe allWr true 30 3 (constStream 35)).timestamps
        = [(0, 0), (35, 1)] ∧
    extract_unique_frames_app id belowNe allWr true 30 3 (constStream 35) =
      Except.ok { reported := false, timestamps := [(0, 0)], written := [(0, 0, 0)] } ∧
    [(0, 0), (35, 1)] ≠ ([(0, 0)] : List (Nat × Nat)) :=
  ⟨rfl, rfl, by decide⟩

section ConstLemmas

variable {F G : Type}
variable (toGray : F → G) (below : G → G → Bool) (writeOk : Nat → Bool)

lemma flushA_emit (fps : Nat) (s : DedupState F G) (sf : F)
    (hsv : s.saved_frame = some sf)
    (hc : s.last_saved_frame_number < (s.frame_number : Int) - (fps : Int)) :
    flushA writeOk fps s =
      { s with
        timestamps := s.timestamps ++ [(s.frame_number, s.frame_number / fps)]
        written :=
          if writeOk s.frame_number then
            s.written ++ [(s.frame_number, s.frame_number / fps, sf)]
          else s.written } := by
  simp only [flushA, hsv]
  rw [if_pos hc]

lemma flushA_skip (fps : Nat) (s : DedupState F G) (sf : F)
    (hsv : s.saved_frame = some sf)
    (hc : ¬ (s.last_saved_frame_number < (s.frame_number : Int) - (fps : Int))) :
    flushA writeOk fps s = s := by
  simp only [flushA, hsv]
  rw [if_neg hc]

lemma stepA_initState_seed (n fps : Nat) (f : F) :
    stepA toGray below writeOk n fps (initState : DedupState F G) f =
      ⟨some (toGray f), some f, 1, 0, [(0, 0)],
        if writeOk 0 then [(0, 0, f)] else []⟩ := by
  rw [stepA_seed toGray below writeOk n fps initState f (by simp [initState]) rfl]
  simp [initState]

lemma stepApp_initState_seed (n fps : Nat) (f : F) (hz : fps ≠ 0) :
    stepApp toGray below writeOk n fps (initState : DedupState F G) f =
      Except.ok
        ⟨some (toGray f), none, 1, 0, [(0, 0)],
          if writeOk 0 then [(0, 0, f)] else []⟩ := by
  rw [stepApp_seed toGray below writeOk n fps initState f (by simp [initState]) rfl hz]
  simp [initState]

lemma runA_const (n fps : Nat) (f : F) (hb : below (toGray f) (toGray f) = false) :
    ∀ (k m : Nat) (ls : Int) (ts : List (Nat × Nat)) (w : List (Nat × Nat × F)),
      runA toGray below writeOk n fps
          ⟨some (toGray f), some f, m, ls, ts, w⟩ ((List.replicate k f).map some) =
        ⟨some (toGray f), some f, m + k, ls, ts, w⟩ := by
  intro k
  induction k with
  | zero => intro m ls ts w; rfl
  | succ k ih =>
    intro m ls ts w
    rw [List.replicate_succ, List.map_cons, runA_map_cons]
    have harith : m + (k + 1) = (m + 1) + k := by omega
    rw [harith]
    by_cases h0 : m % n = 0
    · rw [stepA_sim toGray below writeOk n fps _ f h0 rfl hb]
      exact ih (m + 1) ls ts w
    · rw [stepA_not_sampled toGray below writeOk n fps _ f h0]
      exact ih (m + 1) ls ts w

lemma runApp_const (n fps : Nat) (f : F) (hb : below (toGray f) (toGray f) = false) :
    ∀ (k m : Nat) (ls : Int) (ts : List (Nat × Nat)) (w : List (Nat × Nat × F))
      (sv : Option F), (sv = none ∨ sv = some f) →
      ∃ sv2, (sv2 = none ∨ sv2 = some f) ∧
        runApp toGray below writeOk n fps
            ⟨some (toGray f), sv, m, ls, ts, w⟩ ((List.replicate k f).map some) =
          Except.ok ⟨some (toGray f), sv2, m + k, ls, ts, w⟩ := by
  intro k
  induction k with
  | zero =>
    intro m ls ts w sv hsv
    exact ⟨sv, hsv, rfl⟩
  | succ k ih =>
    intro m ls ts w sv hsv
    rw [List.replicate_succ, List.map_cons]
    have harith : m + (k + 1) = (m + 1) + k := by omega
    rw [harith]
    by_cases h0 : m % n = 0
    · obtain ⟨sv2, hsv2, hrun⟩ := ih (m + 1) ls ts w (some f) (Or.inr rfl)
      refine ⟨sv2, hsv2, ?_⟩
      simp only [runApp]
      rw [stepApp_sim toGray below writeOk n fps _ f h0 rfl hb]
      exact hrun
    · obtain ⟨sv2, hsv2, hrun⟩ := ih (m + 1) ls ts w sv hsv
      refine ⟨sv2, hsv2, ?_⟩
      simp only [runApp]
      rw [stepApp_not_sampled toGray below writeOk n fps _ f h0]
      exact hrun

end ConstLemmas

/-- Claim C4 counterexample: a constant stream of 40 identical frames at
30 fps produces TWO KeptFrames in `src/a.py`, not one: the seed `(0, 0)`
and the final flush `(40, 1)` (the flush guard
`last_saved_frame_number < frame_number - fps` holds since the marker
stayed at the seed index 0 and 40 - 30 > 0).  This refutes "exactly one
KeptFrame regardless of stream length" for constant streams longer than
one frame-rate's worth of frames. -/
theorem claim4_counterexample :
    extract_unique_frames_a id belowNe allWr true 30 3 (constStream 40) =
      { reported := false
        timestamps := [(0, 0), (40, 1)]
        written := [(0, 0, 0), (40, 1, 0)] } :=
  rfl

/-- Claim C4 amended: for a non-empty constant stream of `N` identical
frames (whose mutual similarity test never reports "changed" — as with
real SSIM, where the zero dynamic range of a constant frame yields NaN and
`NaN < threshold` is false), `src/a.py` returns exactly the seed entry
when `N` is at most one frame-rate's worth of frames, and exactly the seed
plus one final flush entry `(N, N / fps)` when `N` exceeds it;
`src/app.py` (which has no flush) returns exactly the seed entry whenever
the reported fps is nonzero. -/
theorem claim4_amended {F G : Type} (toGray : F → G) (below : G → G → Bool)
    (writeOk : Nat → Bool) (fps0 n N : Nat) (f : F)
    (hb : below (toGray f) (toGray f) = false) (hN : 0 < N) (h0 : fps0 ≠ 0) :
    (extract_unique_frames_a toGray below writeOk true fps0 n
        ((List.replicate N f).map some)).timestamps
      = (if fpsA fps0 < N then [(0, 0), (N, N / fpsA fps0)] else [(0, 0)]) ∧
    extract_unique_frames_app toGray below writeOk true fps0 n
        ((List.replicate N f).map some)
      = Except.ok
          { reported := false
            timestamps := [(0, 0)]
            written := if writeOk 0 then [(0, 0, f)] else [] } := by
  obtain ⟨M, rfl⟩ : ∃ M, N = M + 1 := ⟨N - 1, by omega⟩
  have hrun : runA toGray below writeOk n (fpsA fps0) initState
      ((List.replicate (M + 1) f).map some)
      = ⟨some (toGray f), some f, M + 1, 0, [(0, 0)],
          if writeOk 0 then [(0, 0, f)] else []⟩ := by
    rw [List.replicate_succ, List.map_cons, runA_map_cons,
      stepA_initState_seed toGray below writeOk n (fpsA fps0) f]
    have := runA_const toGray below writeOk n (fpsA fps0) f hb M 1 0 [(0, 0)]
      (if writeOk 0 then [(0, 0, f)] else [])
    simpa [Nat.add_comm] using this
  constructor
  · have hts : (extract_unique_frames_a toGray below writeOk true fps0 n
        ((List.replicate (M + 1) f).map some)).timestamps
        = (flushA writeOk (fpsA fps0) (runA toGray below writeOk n (fpsA fps0) initState
            ((List.replicate (M + 1) f).map some))).timestamps := rfl
    rw [hts, hrun]
    by_cases hcmp : fpsA fps0 < M + 1
    · rw [if_pos hcmp,
        flushA_emit writeOk (fpsA fps0) _ f rfl
          (by show (0 : Int) < ((M + 1 : Nat) : Int) - ((fpsA fps0 : Nat) : Int); omega)]
      rfl
    · rw [if_neg hcmp,
        flushA_skip writeOk (fpsA fps0) _ f rfl
          (by show ¬ ((0 : Int) < ((M + 1 : Nat) : Int) - ((fpsA fps0 : Nat) : Int)); omega)]
  · obtain ⟨sv2, hsv2, hrunApp⟩ := runApp_const toGray below writeOk n fps0 f hb M 1 0
      [(0, 0)] (if writeOk 0 then [(0, 0, f)] else []) none (Or.inl rfl)
    have hfull : runApp toGray below writeOk n fps0 initState
        ((List.replicate (M + 1) f).map some)
        = Except.ok ⟨some (toGray f), sv2, 1 + M, 0, [(0, 0)],
            if writeOk 0 then [(0, 0, f)] else []⟩ := by
      rw [List.replicate_succ, List.map_cons]
      simp only [runApp]
      rw [stepApp_initState_seed toGray below writeOk n fps0 f h0]
      exact hrunApp
    have hunfold : extract_unique_frames_app toGray below writeOk true fps0 n
        ((List.replicate (M + 1) f).map some)
        = match runApp toGray below writeOk n fps0 initState
            ((List.replicate (M + 1) f).map some) with
          | Except.error e => Except.error e
          | Except.ok final =>
            Except.ok { reported := false, timestamps := final.timestamps,
                        written := final.written } := rfl
    rw [hunfold, hfull]

/-- Claim C4 amended, witnessed on a 40-frame constant stream at 30 fps:
`src/a.py` returns the seed plus flush, `src/app.py` the seed only. -/
theorem claim4_witness :
    (extract_unique_frames_a id belowNe allWr true 30 3
        ((List.replicate 40 (0 : Nat)).map some)).timestamps = [(0, 0), (40, 1)] ∧
    extract_unique_frames_app id belowNe allWr true 30 3
        ((List.replicate 40 (0 : Nat)).map some)
      = Except.ok { reported := false, timestamps := [(0, 0)], written := [(0, 0, 0)] } :=
  claim4_amended id belowNe allWr 30 3 40 0 rfl (by decide) (by decide)

/-- Claim C3 amended: the flush rule of `src/a.py` fires exactly under the
code's guard: a Candidate exists at stream end and the scene-change marker
`last_saved_frame_number` — not the index of the last emission — precedes
the stream end by more than one frame-rate's worth of frames.  When it
fires it appends one final entry recorded at the stream-end index
`stream.length` (the Candidate's image is what gets written, under that
index).  `src/app.py` has no flush step at all. -/
theorem claim3_amended {F G : Type} (toGray : F → G) (below : G → G → Bool)
    (writeOk : Nat → Bool) (fps0 n : Nat) (stream : List F) (sf : F)
    (hsv : (runA toGray below writeOk n (fpsA fps0) initState (stream.map some)).saved_frame
        = some sf)
    (hc : (runA toGray below writeOk n (fpsA fps0) initState
          (stream.map some)).last_saved_frame_number
        < (stream.length : Int) - ((fpsA fps0 : Nat) : Int)) :
    (extract_unique_frames_a toGray below writeOk true fps0 n (stream.map some)).timestamps
      = (runA toGray below writeOk n (fpsA fps0) initState (stream.map some)).timestamps
        ++ [(stream.length, stream.length / fpsA fps0)] := by
  have hfn : (runA toGray below writeOk n (fpsA fps0) initState
      (stream.map some)).frame_number = stream.length := by
    rw [runA_frame_number toGray below writeOk n (fpsA fps0) stream initState]
    simp [initState]
  have hts : (extract_unique_frames_a toGray below writeOk true fps0 n
      (stream.map some)).timestamps
      = (flushA writeOk (fpsA fps0) (runA toGray below writeOk n (fpsA fps0) initState
          (stream.map some))).timestamps := rfl
  have hc2 : (runA toGray below writeOk n (fpsA fps0) initState
      (stream.map some)).last_saved_frame_number
      < (((runA toGray below writeOk n (fpsA fps0) initState
          (stream.map some)).frame_number : Nat) : Int) - ((fpsA fps0 : Nat) : Int) := by
    rw [hfn]
    exact hc
  rw [hts, flushA_emit writeOk (fpsA fps0) _ sf hsv hc2]
  simp [hfn]

/-- Claim C3 amended, witnessed on a 45-frame constant stream at 30 fps:
the marker stays at the seed index 0 < 45 - 30, so the flush appends
`(45, 1)`. -/
theorem claim3_witness :
    (extract_unique_frames_a id belowNe allWr true 30 3
        ((List.replicate 45 (0 : Nat)).map some)).timestamps
      = (runA id belowNe allWr 3 30 initState
          ((List.replicate 45 (0 : Nat)).map some)).timestamps ++ [(45, 1)] :=
  claim3_amended id belowNe allWr 30 3 (List.replicate 45 0) 0 rfl (by decide)

section WriteOkLemmas

variable {F G : Type}
variable (toGray : F → G) (below : G → G → Bool)

lemma coreOf_fields (s1 s2 : DedupState F G) (h : coreOf s1 = coreOf s2) :
    s1.last_frame = s2.last_frame ∧ s1.saved_frame = s2.saved_frame ∧
      s1.frame_number = s2.frame_number ∧
      s1.last_saved_frame_number = s2.last_saved_frame_number ∧
      s1.timestamps = s2.timestamps := by
  simpa [coreOf, Prod.ext_iff] using h

lemma stepA_core_congr (w1 w2 : Nat → Bool) (n fps : Nat) (s1 s2 : DedupState F G) (f : F)
    (h : coreOf s1 = coreOf s2) :
    coreOf (stepA toGray below w1 n fps s1 f) =
      coreOf (stepA toGray below w2 n fps s2 f) := by
  obtain ⟨h1, h2, h3, h4, h5⟩ := coreOf_fields s1 s2 h
  by_cases h0 : s1.frame_number % n = 0
  · cases hlf : s1.last_frame with
    | none =>
      rw [stepA_seed toGray below w1 n fps s1 f h0 hlf,
          stepA_seed toGray below w2 n fps s2 f (h3 ▸ h0) (h1 ▸ hlf)]
      simp [coreOf, h3, h5]
    | some lf =>
      cases hb : below (toGray f) lf with
      | false =>
        rw [stepA_sim toGray below w1 n fps s1 f h0 hlf hb,
            stepA_sim toGray below w2 n fps s2 f (h3 ▸ h0) (h1 ▸ hlf) hb]
        simp [coreOf, h2, h3, h4, h5]
      | true =>
        cases hsv : s1.saved_frame with
        | none =>
          rw [stepA_dis_none toGray below w1 n fps s1 f h0 hlf hb hsv,
              stepA_dis_none toGray below w2 n fps s2 f (h3 ▸ h0) (h1 ▸ hlf) hb (h2 ▸ hsv)]
          simp [coreOf, h3, h5]
        | some sf =>
          by_cases hgap : (s1.frame_number : Int) - s1.last_saved_frame_number > (fps : Int)
          · rw [stepA_dis_emit toGray below w1 n fps s1 f h0 hlf hb hsv hgap,
                stepA_dis_emit toGray below w2 n fps s2 f (h3 ▸ h0) (h1 ▸ hlf) hb (h2 ▸ hsv)
                  (by rw [← h3, ← h4]; exact hgap)]
            simp [coreOf, h3, h5]
          · rw [stepA_dis_noGap toGray below w1 n fps s1 f h0 hlf hb hsv hgap,
                stepA_dis_noGap toGray below w2 n fps s2 f (h3 ▸ h0) (h1 ▸ hlf) hb (h2 ▸ hsv)
                  (by rw [← h3, ← h4]; exact hgap)]
            simp [coreOf, h3, h5]
  · rw [stepA_not_sampled toGray below w1 n fps s1 f h0,
        stepA_not_sampled toGray below w2 n fps s2 f (h3 ▸ h0)]
    simp [coreOf, h1, h2, h3, h4, h5]

lemma runA_core_congr (w1 w2 : Nat → Bool) (n fps : Nat) (stream : List (Option F)) :
    ∀ s1 s2 : DedupState F G, coreOf s1 = coreOf s2 →
      coreOf (runA toGray below w1 n fps s1 stream) =
        coreOf (runA toGray below w2 n fps s2 stream) := by
  induction stream with
  | nil => intro s1 s2 h; exact h
  | cons x rest ih =>
    intro s1 s2 h
    cases x with
    | none => exact h
    | some f => exact ih _ _ (stepA_core_congr toGray below w1 w2 n fps s1 s2 f h)

lemma flushA_core_congr (w1 w2 : Nat → Bool) (fps : Nat) (s1 s2 : DedupState F G)
    (h : coreOf s1 = coreOf s2) :
    coreOf (flushA w1 fps s1) = coreOf (flushA w2 fps s2) := by
  obtain ⟨h1, h2, h3, h4, h5⟩ := coreOf_fields s1 s2 h
  cases hsv : s1.saved_frame with
  | none =>
    have hsv2 : s2.saved_frame = none := h2 ▸ hsv
    simp only [flushA, hsv, hsv2]
    exact h
  | some sf =>
    have hsv2 : s2.saved_frame = some sf := h2 ▸ hsv
    by_cases hc : s1.last_saved_frame_number < (s1.frame_number : Int) - (fps : Int)
    · rw [flushA_emit w1 fps s1 sf hsv hc,
          flushA_emit w2 fps s2 sf hsv2 (by rw [← h3, ← h4]; exact hc)]
      simp [coreOf, h1, h2, h3, h4, h5]
    · rw [flushA_skip w1 fps s1 sf hsv hc,
          flushA_skip w2 fps s2 sf hsv2 (by rw [← h3, ← h4]; exact hc)]
      exact h

lemma stepApp_core_congr (w1 w2 : Nat → Bool) (n fps : Nat) (s1 s2 : DedupState F G) (f : F)
    (h : coreOf s1 = coreOf s2) :
    coreOfE (stepApp toGray below w1 n fps s1 f) =
      coreOfE (stepApp toGray below w2 n fps s2 f) := by
  obtain ⟨h1, h2, h3, h4, h5⟩ := coreOf_fields s1 s2 h
  by_cases h0 : s1.frame_number % n = 0
  · cases hlf : s1.last_frame with
    | none =>
      by_cases hz : fps = 0
      · rw [stepApp_seed_err toGray below w1 n fps s1 f h0 hlf hz,
            stepApp_seed_err toGray below w2 n fps s2 f (h3 ▸ h0) (h1 ▸ hlf) hz]
      · rw [stepApp_seed toGray below w1 n fps s1 f h0 hlf hz,
            stepApp_seed toGray below w2 n fps s2 f (h3 ▸ h0) (h1 ▸ hlf) hz]
        simp [coreOfE, coreOf, h2, h3, h5]
    | some lf =>
      cases hb : below (toGray f) lf with
      | false =>
        rw [stepApp_sim toGray below w1 n fps s1 f h0 hlf hb,
            stepApp_sim toGray below w2 n fps s2 f (h3 ▸ h0) (h1 ▸ hlf) hb]
        simp [coreOfE, coreOf, h2, h3, h4, h5]
      | true =>
        cases hsv : s1.saved_frame with
        | none =>
          rw [stepApp_dis_none toGray below w1 n fps s1 f h0 hlf hb hsv,
              stepApp_dis_none toGray below w2 n fps s2 f (h3 ▸ h0) (h1 ▸ hlf) hb (h2 ▸ hsv)]
          simp [coreOfE, coreOf, h3, h5]
        | some sf =>
          by_cases hgap : (s1.frame_number : Int) - s1.last_saved_frame_number > (fps : Int)
          · by_cases hz : fps = 0
            · rw [stepApp_dis_emit_err toGray below w1 n fps s1 f h0 hlf hb hsv hgap hz,
                  stepApp_dis_emit_err toGray below w2 n fps s2 f (h3 ▸ h0) (h1 ▸ hlf) hb
                    (h2 ▸ hsv) (by rw [← h3, ← h4]; exact hgap) hz]
            · rw [stepApp_dis_emit toGray below w1 n fps s1 f h0 hlf hb hsv hgap hz,
                  stepApp_dis_emit toGray below w2 n fps s2 f (h3 ▸ h0) (h1 ▸ hlf) hb
                    (h2 ▸ hsv) (by rw [← h3, ← h4]; exact hgap) hz]
              simp [coreOfE, coreOf, h3, h5]
          · rw [stepApp_dis_noGap toGray below w1 n fps s1 f h0 hlf hb hsv hgap,
                stepApp_dis_noGap toGray below w2 n fps s2 f (h3 ▸ h0) (h1 ▸ hlf) hb
                  (h2 ▸ hsv) (by rw [← h3, ← h4]; exact hgap)]
            simp [coreOfE, coreOf, h3, h5]
  · rw [stepApp_not_sampled toGray below w1 n fps s1 f h0,
        stepApp_not_sampled toGray below w2 n fps s2 f (h3 ▸ h0)]
    simp [coreOfE, coreOf, h1, h2, h3, h4, h5]

lemma runApp_core_congr (w1 w2 : Nat → Bool) (n fps : Nat) (stream : List (Option F)) :
    ∀ s1 s2 : DedupState F G, coreOf s1 = coreOf s2 →
      coreOfE (runApp toGray below w1 n fps s1 stream) =
        coreOfE (runApp toGray below w2 n fps s2 stream) := by
  induction stream with
  | nil =>
    intro s1 s2 h
    show coreOfE (Except.ok s1) = coreOfE (Except.ok s2)
    simp [coreOfE, h]
  | cons x rest ih =>
    intro s1 s2 h
    cases x with
    | none =>
      show coreOfE (Except.ok s1) = coreOfE (Except.ok s2)
      simp [coreOfE, h]
    | some f =>
      have hstep := stepApp_core_congr toGray below w1 w2 n fps s1 s2 f h
      simp only [runApp]
      cases e1 : stepApp toGray below w1 n fps s1 f with
      | error e =>
        cases e2 : stepApp toGray below w2 n fps s2 f with
        | error e2v => rfl
        | ok t2 =>
          rw [e1, e2] at hstep
          simp [coreOfE] at hstep
      | ok t1 =>
        cases e2 : stepApp toGray below w2 n fps s2 f with
        | error e2v =>
          rw [e1, e2] at hstep
          simp [coreOfE] at hstep
        | ok t2 =>
          rw [e1, e2] at hstep
          simp only [coreOfE, Except.ok.injEq] at hstep
          exact ih t1 t2 hstep

end WriteOkLemmas

/-- Claim C9 amended: the algorithm ignores the success of the persistence
sink entirely: under any two patterns of `cv2.imwrite` successes and
failures, both variants return the same timestamps (and keep the same
deduplication state throughout); a failed write only means the image file
is absent from the sink.  In particular a KeptFrame whose image cannot be
written is NOT dropped from the returned Timeline. -/
theorem claim9_amended {F G : Type} (toGray : F → G) (below : G → G → Bool)
    (w1 w2 : Nat → Bool) (opened : Bool) (fps0 n : Nat) (stream : List (Option F)) :
    (extract_unique_frames_a toGray below w1 opened fps0 n stream).timestamps =
      (extract_unique_frames_a toGray below w2 opened fps0 n stream).timestamps ∧
    timestampsE (extract_unique_frames_app toGray below w1 opened fps0 n stream) =
      timestampsE (extract_unique_frames_app toGray below w2 opened fps0 n stream) := by
  constructor
  · cases hop : opened with
    | false => rfl
    | true =>
      have hcore := flushA_core_congr w1 w2 (fpsA fps0)
        (runA toGray below w1 n (fpsA fps0) initState stream)
        (runA toGray below w2 n (fpsA fps0) initState stream)
        (runA_core_congr toGray below w1 w2 n (fpsA fps0) stream initState initState rfl)
      have hts := congrArg (fun c => c.2.2.2.2) hcore
      simpa [coreOf] using hts
  · cases hop : opened with
    | false => rfl
    | true =>
      have hcore := runApp_core_congr toGray below w1 w2 n fps0 stream initState initState rfl
      have hunfold1 : extract_unique_frames_app toGray below w1 true fps0 n stream
          = match runApp toGray below w1 n fps0 initState stream with
            | Except.error e => Except.error e
            | Except.ok final =>
              Except.ok { reported := false, timestamps := final.timestamps,
                          written := final.written } := rfl
      have hunfold2 : extract_unique_frames_app toGray below w2 true fps0 n stream
          = match runApp toGray below w2 n fps0 initState stream with
            | Except.error e => Except.error e
            | Except.ok final =>
              Except.ok { reported := false, timestamps := final.timestamps,
                          written := final.written } := rfl
      rw [hunfold1, hunfold2]
      cases e1 : runApp toGray below w1 n fps0 initState stream with
      | error e =>
        cases e2 : runApp toGray below w2 n fps0 initState stream with
        | error e2v => rfl
        | ok t2 =>
          rw [e1, e2] at hcore
          simp [coreOfE] at hcore
      | ok t1 =>
        cases e2 : runApp toGray below w2 n fps0 initState stream with
        | error e2v =>
          rw [e1, e2] at hcore
          simp [coreOfE] at hcore
        | ok t2 =>
          rw [e1, e2] at hcore
          simp only [coreOfE, Except.ok.injEq] at hcore
          obtain ⟨g1, g2, g3, g4, g5⟩ := coreOf_fields t1 t2 hcore
          simp [timestampsE, g5]

section StrideLemmas

variable {F G : Type}
variable (toGray : F → G) (below : G → G → Bool) (writeOk : Nat → Bool)

lemma stepA_sampled (n fps : Nat) (s : DedupState F G) (f : F)
    (hs : ∀ p ∈ s.timestamps, p.1 % n = 0) :
    ∀ p ∈ (stepA toGray below writeOk n fps s f).timestamps, p.1 % n = 0 := by
  by_cases h0 : s.frame_number % n = 0
  · cases hlf : s.last_frame with
    | none =>
      rw [stepA_seed toGray below writeOk n fps s f h0 hlf]
      intro p hp
      simp only [List.mem_append, List.mem_singleton] at hp
      rcases hp with hp | hp
      · exact hs p hp
      · rw [hp]
        exact h0
    | some lf =>
      cases hb : below (toGray f) lf with
      | false =>
        rw [stepA_sim toGray below writeOk n fps s f h0 hlf hb]
        exact hs
      | true =>
        cases hsv : s.saved_frame with
        | none =>
          rw [stepA_dis_none toGray below writeOk n fps s f h0 hlf hb hsv]
          exact hs
        | some sf =>
          by_cases hgap : (s.frame_number : Int) - s.last_saved_frame_number > (fps : Int)
          · rw [stepA_dis_emit toGray below writeOk n fps s f h0 hlf hb hsv hgap]
            intro p hp
            simp only [List.mem_append, List.mem_singleton] at hp
            rcases hp with hp | hp
            · exact hs p hp
            · rw [hp]
              exact h0
          · rw [stepA_dis_noGap toGray below writeOk n fps s f h0 hlf hb hsv hgap]
            exact hs
  · rw [stepA_not_sampled toGray below writeOk n fps s f h0]
    exact hs

lemma runA_sampled (n fps : Nat) (stream : List (Option F)) :
    ∀ s : DedupState F G, (∀ p ∈ s.timestamps, p.1 % n = 0) →
      ∀ p ∈ (runA toGray below writeOk n fps s stream).timestamps, p.1 % n = 0 := by
  induction stream with
  | nil => intro s hs; exact hs
  | cons x rest ih =>
    intro s hs
    cases x with
    | none => exact hs
    | some f => exact ih _ (stepA_sampled toGray below writeOk n fps s f hs)

lemma stepApp_sampled (n fps : Nat) (s s2 : DedupState F G) (f : F)
    (hs : ∀ p ∈ s.timestamps, p.1 % n = 0)
    (hok : stepApp toGray below writeOk n fps s f = Except.ok s2) :
    ∀ p ∈ s2.timestamps, p.1 % n = 0 := by
  by_cases h0 : s.frame_number % n = 0
  · cases hlf : s.last_frame with
    | none =>
      by_cases hz : fps = 0
      · rw [stepApp_seed_err toGray below writeOk n fps s f h0 hlf hz] at hok
        cases hok
      · rw [stepApp_seed toGray below writeOk n fps s f h0 hlf hz] at hok
        cases hok
        intro p hp
        simp only [List.mem_append, List.mem_singleton] at hp
        rcases hp with hp | hp
        · exact hs p hp
        · rw [hp]
          exact h0
    | some lf =>
      cases hb : below (toGray f) lf with
      | false =>
        rw [stepApp_sim toGray below writeOk n fps s f h0 hlf hb] at hok
        cases hok
        exact hs
      | true =>
        cases hsv : s.saved_frame with
        | none =>
          rw [stepApp_dis_none toGray below writeOk n fps s f h0 hlf hb hsv] at hok
          cases hok
          exact hs
        | some sf =>
          by_cases hgap : (s.frame_number : Int) - s.last_saved_frame_number > (fps : Int)
          · by_cases hz : fps = 0
            · rw [stepApp_dis_emit_err toGray below writeOk n fps s f h0 hlf hb hsv hgap hz]
                at hok
              cases hok
            · rw [stepApp_dis_emit toGray below writeOk n fps s f h0 hlf hb hsv hgap hz]
                at hok
              cases hok
              intro p hp
              simp only [List.mem_append, List.mem_singleton] at hp
              rcases hp with hp | hp
              · exact hs p hp
              · rw [hp]
                exact h0
          · rw [stepApp_dis_noGap toGray below writeOk n fps s f h0 hlf hb hsv hgap] at hok
            cases hok
            exact hs
  · rw [stepApp_not_sampled toGray below writeOk n fps s f h0] at hok
    cases hok
    exact hs

lemma runApp_sampled (n fps : Nat) (stream : List (Option F)) :
    ∀ s s2 : DedupState F G, (∀ p ∈ s.timestamps, p.1 % n = 0) →
      runApp toGray below writeOk n fps s stream = Except.ok s2 →
      ∀ p ∈ s2.timestamps, p.1 % n = 0 := by
  induction stream with
  | nil =>
    intro s s2 hs hok
    cases hok
    exact hs
  | cons x rest ih =>
    intro s s2 hs hok
    cases x with
    | none =>
      cases hok
      exact hs
    | some f =>
      simp only [runApp] at hok
      cases hstep : stepApp toGray below writeOk n fps s f with
      | error e =>
        rw [hstep] at hok
        cases hok
      | ok s1 =>
        rw [hstep] at hok
        exact ih s1 s2 (stepApp_sampled toGray below writeOk n fps s s1 f hs hstep) hok

lemma flushA_timestamps_cases (fps : Nat) (s : DedupState F G) :
    (flushA writeOk fps s).timestamps = s.timestamps ∨
    (flushA writeOk fps s).timestamps =
      s.timestamps ++ [(s.frame_number, s.frame_number / fps)] := by
  cases hsv : s.saved_frame with
  | none =>
    left
    simp [flushA, hsv]
  | some sf =>
    by_cases hc : s.last_saved_frame_number < (s.frame_number : Int) - (fps : Int)
    · right
      rw [flushA_emit writeOk fps s sf hsv hc]
    · left
      rw [flushA_skip writeOk fps s sf hsv hc]

lemma runA_stride_congr (n fps : Nat) :
    ∀ (l1 l2 : List F) (s : DedupState F G),
      l1.length = l2.length →
      (∀ i, i < l1.length → (s.frame_number + i) % n = 0 → l1.get? i = l2.get? i) →
      runA toGray below writeOk n fps s (l1.map some) =
        runA toGray below writeOk n fps s (l2.map some) := by
  intro l1
  induction l1 with
  | nil =>
    intro l2 s hlen _
    have hl2 : l2 = [] := List.length_eq_zero.mp hlen.symm
    rw [hl2]
  | cons a t ih =>
    intro l2 s hlen hagree
    cases l2 with
    | nil => simp at hlen
    | cons b t2 =>
      have hlen2 : t.length = t2.length := by simpa using hlen
      by_cases h0 : s.frame_number % n = 0
      · have hab : a = b := by
          have := hagree 0 (by simp) (by simpa using h0)
          simpa using this
        rw [hab, List.map_cons, List.map_cons, runA_map_cons, runA_map_cons]
        apply ih t2 _ hlen2
        intro i hi hmod
        have hmod2 : (s.frame_number + (i + 1)) % n = 0 := by
          rw [stepA_frame_number] at hmod
          have harith : s.frame_number + 1 + i = s.frame_number + (i + 1) := by omega
          rwa [harith] at hmod
        have := hagree (i + 1) (by simpa using Nat.succ_lt_succ hi) hmod2
        simpa using this
      · rw [List.map_cons, List.map_cons, runA_map_cons, runA_map_cons,
          stepA_not_sampled toGray below writeOk n fps s a h0,
          stepA_not_sampled toGray below writeOk n fps s b h0]
        apply ih t2 _ hlen2
        intro i hi hmod
        have hmod2 : (s.frame_number + (i + 1)) % n = 0 := by
          simp only at hmod
          have harith : s.frame_number + 1 + i = s.frame_number + (i + 1) := by omega
          rwa [harith] at hmod
        have := hagree (i + 1) (by simpa using Nat.succ_lt_succ hi) hmod2
        simpa using this

lemma stepApp_ok_frame_number (n fps : Nat) (s s2 : DedupState F G) (f : F)
    (hok : stepApp toGray below writeOk n fps s f = Except.ok s2) :
    s2.frame_number = s.frame_number + 1 := by
  simp only [stepApp] at hok
  repeat' split at hok
  all_goals cases hok <;> rfl

lemma runApp_stride_congr (n fps : Nat) :
    ∀ (l1 l2 : List F) (s : DedupState F G),
      l1.length = l2.length →
      (∀ i, i < l1.length → (s.frame_number + i) % n = 0 → l1.get? i = l2.get? i) →
      runApp toGray below writeOk n fps s (l1.map some) =
        runApp toGray below writeOk n fps s (l2.map some) := by
  intro l1
  induction l1 with
  | nil =>
    intro l2 s hlen _
    have hl2 : l2 = [] := List.length_eq_zero.mp hlen.symm
    rw [hl2]
  | cons a t ih =>
    intro l2 s hlen hagree
    cases l2 with
    | nil => simp at hlen
    | cons b t2 =>
      have hlen2 : t.length = t2.length := by simpa using hlen
      by_cases h0 : s.frame_number % n = 0
      · have hab : a = b := by
          have := hagree 0 (by simp) (by simpa using h0)
          simpa using this
        rw [hab, List.map_cons, List.map_cons]
        simp only [runApp]
        cases hstep : stepApp toGray below writeOk n fps s b with
        | error e => rfl
        | ok s2 =>
          apply ih t2 s2 hlen2
          intro i hi hmod
          have hfn : s2.frame_number = s.frame_number + 1 :=
            stepApp_ok_frame_number toGray below writeOk n fps s s2 b hstep
          have hmod2 : (s.frame_number + (i + 1)) % n = 0 := by
            rw [hfn] at hmod
            have harith : s.frame_number + 1 + i = s.frame_number + (i + 1) := by omega
            rwa [harith] at hmod
          have := hagree (i + 1) (by simpa using Nat.succ_lt_succ hi) hmod2
          simpa using this
      · rw [List.map_cons, List.map_cons]
        simp only [runApp]
        rw [stepApp_not_sampled toGray below writeOk n fps s a h0,
            stepApp_not_sampled toGray below writeOk n fps s b h0]
        apply ih t2 _ hlen2
        intro i hi hmod
        have hmod2 : (s.frame_number + (i + 1)) % n = 0 := by
          simp only at hmod
          have harith : s.frame_number + 1 + i = s.frame_number + (i + 1) := by omega
          rwa [harith] at hmod
        have := hagree (i + 1) (by simpa using Nat.succ_lt_succ hi) hmod2
        simpa using this

end StrideLemmas

/-- Claim C5: frames whose index is not divisible by the stride `n` never
appear as the index of a KeptFrame and never influence the algorithm.
Precisely: (1) every `src/a.py` Timeline index is either a sampled index
(`% n = 0`) or the stream-end index `stream.length` carried by the flush
entry — and the latter is not the index of any frame of the stream, so no
non-sampled frame's index ever appears; (2) every index of a non-raising
`src/app.py` Timeline is a sampled index; (3, 4) two streams of equal
length that agree on all frames at sampled indices produce identical
results in both variants, so non-sampled frames influence neither the
similarity state nor the output.  (`0 < n` reflects that Python raises on
stride 0.) -/
theorem claim5_stride {F G : Type} (toGray : F → G) (below : G → G → Bool)
    (writeOk : Nat → Bool) (opened : Bool) (fps0 n : Nat)
    (stream stream2 : List F) (hn : 0 < n)
    (hlen : stream.length = stream2.length)
    (hagree : ∀ i, i < stream.length → i % n = 0 → stream.get? i = stream2.get? i) :
    (∀ p ∈ (extract_unique_frames_a toGray below writeOk opened fps0 n
        (stream.map some)).timestamps, p.1 % n = 0 ∨ p.1 = stream.length) ∧
    allSampledE n (extract_unique_frames_app toGray below writeOk opened fps0 n
        (stream.map some)) = true ∧
    extract_unique_frames_a toGray below writeOk opened fps0 n (stream.map some) =
      extract_unique_frames_a toGray below writeOk opened fps0 n (stream2.map some) ∧
    extract_unique_frames_app toGray below writeOk opened fps0 n (stream.map some) =
      extract_unique_frames_app toGray below writeOk opened fps0 n (stream2.map some) := by
  refine ⟨?_, ?_, ?_, ?_⟩
  · cases hop : opened with
    | false =>
      intro p hp
      simp [extract_unique_frames_a] at hp
    | true =>
      intro p hp
      have hmid := runA_sampled toGray below writeOk n (fpsA fps0) (stream.map some)
        initState (by simp [initState])
      have hfn : (runA toGray below writeOk n (fpsA fps0) initState
          (stream.map some)).frame_number = stream.length := by
        rw [runA_frame_number toGray below writeOk n (fpsA fps0) stream initState]
        simp [initState]
      have hts : (extract_unique_frames_a toGray below writeOk true fps0 n
          (stream.map some)).timestamps
          = (flushA writeOk (fpsA fps0) (runA toGray below writeOk n (fpsA fps0)
              initState (stream.map some))).timestamps := rfl
      rw [hts] at hp
      rcases flushA_timestamps_cases writeOk (fpsA fps0)
          (runA toGray below writeOk n (fpsA fps0) initState (stream.map some))
        with hcase | hcase
      · rw [hcase] at hp
        exact Or.inl (hmid p hp)
      · rw [hcase] at hp
        simp only [List.mem_append, List.mem_singleton] at hp
        rcases hp with hp | hp
        · exact Or.inl (hmid p hp)
        · right
          rw [hp]
          exact hfn
  · cases hop : opened with
    | false => rfl
    | true =>
      have hunfold : extract_unique_frames_app toGray below writeOk true fps0 n
          (stream.map some)
          = match runApp toGray below writeOk n fps0 initState (stream.map some) with
            | Except.error e => Except.error e
            | Except.ok final =>
              Except.ok { reported := false, timestamps := final.timestamps,
                          written := final.written } := rfl
      rw [hunfold]
      cases hrun : runApp toGray below writeOk n fps0 initState (stream.map some) with
      | error e => rfl
      | ok final =>
        have hmid := runApp_sampled toGray below writeOk n fps0 (stream.map some)
          initState final (by simp [initState]) hrun
        simp only [allSampledE, allSampled, List.all_eq_true]
        intro p hp
        simp [hmid p hp]
  · cases hop : opened with
    | false => rfl
    | true =>
      have hcongr : runA toGray below writeOk n (fpsA fps0) initState (stream.map some)
          = runA toGray below writeOk n (fpsA fps0) initState (stream2.map some) :=
        runA_stride_congr toGray below writeOk n (fpsA fps0) stream stream2 initState hlen
          (by
            intro i hi hmod
            exact hagree i hi (by simpa [initState] using hmod))
      simp [extract_unique_frames_a, hcongr]
  · cases hop : opened with
    | false => rfl
    | true =>
      have hcongr : runApp toGray below writeOk n fps0 initState (stream.map some)
          = runApp toGray below writeOk n fps0 initState (stream2.map some) :=
        runApp_stride_congr toGray below writeOk n fps0 stream stream2 initState hlen
          (by
            intro i hi hmod
            exact hagree i hi (by simpa [initState] using hmod))
      simp [extract_unique_frames_app, hcongr]

/-- Claim C5, witnessed with stride 2 on the streams `[5, 7]` and `[5, 9]`,
which agree at the only sampled index 0: the seed index 0 is sampled, and
both variants produce identical results on the two streams. -/
theorem claim5_witness :
    (0 % 2 = 0 ∨ 0 = [5, 7].length) ∧
    allSampledE 2 (extract_unique_frames_app id belowNe allWr true 30 2
        (([5, 7] : List Nat).map some)) = true ∧
    extract_unique_frames_a id belowNe allWr true 30 2 (([5, 7] : List Nat).map some) =
      extract_unique_frames_a id belowNe allWr true 30 2 (([5, 9] : List Nat).map some) ∧
    extract_unique_frames_app id belowNe allWr true 30 2 (([5, 7] : List Nat).map some) =
      extract_unique_frames_app id belowNe allWr true 30 2 (([5, 9] : List Nat).map some) :=
  have h := claim5_stride id belowNe allWr true 30 2 [5, 7] [5, 9] (by decide) rfl
    (by decide)
  ⟨h.1 (0, 0) (by decide), h.2.1, h.2.2.1, h.2.2.2⟩

section SimLemmas

variable {F G : Type}
variable (toGray : F → G) (below : G → G → Bool) (writeOk : Nat → Bool)

lemma simR_init (n : Nat) : SimR n (initState : DedupState F G) initState :=
  ⟨rfl, rfl, rfl, rfl, rfl, Or.inl rfl, fun _ => rfl⟩

lemma stepSim (n fps : Nat) (hn : 0 < n) (hnfps : n ≤ fps) (hz : fps ≠ 0)
    (sA sApp : DedupState F G) (f : F) (h : SimR n sA sApp) :
    ∃ s2, stepApp toGray below writeOk n fps sApp f = Except.ok s2 ∧
      SimR n (stepA toGray below writeOk n fps sA f) s2 := by
  obtain ⟨h1, h2, h3, h4, h5, hsv, h7⟩ := h
  by_cases h0 : sA.frame_number % n = 0
  · cases hlf : sA.last_frame with
    | none =>
      have hlf2 : sApp.last_frame = none := h1 ▸ hlf
      have happN : sApp.saved_frame = none := h7 hlf2
      refine ⟨_, stepApp_seed toGray below writeOk n fps sApp f (h2 ▸ h0) hlf2 hz, ?_⟩
      rw [stepA_seed toGray below writeOk n fps sA f h0 hlf]
      refine ⟨rfl, by simp [h2], by simp [h2], by simp [h4, h2], by simp [h5, h2], ?_, by simp⟩
      refine Or.inr ⟨by simpa using happN, sA.frame_number, by simp, h0, by simp, ?_⟩
      simp
      omega
    | some lf =>
      have hlf2 : sApp.last_frame = some lf := h1 ▸ hlf
      cases hb : below (toGray f) lf with
      | false =>
        refine ⟨_, stepApp_sim toGray below writeOk n fps sApp f (h2 ▸ h0) hlf2 hb, ?_⟩
        rw [stepA_sim toGray below writeOk n fps sA f h0 hlf hb]
        exact ⟨rfl, by simp [h2], by simp [h3], by simp [h4], by simp [h5],
          Or.inl (by simp), by simp⟩
      | true =>
        rcases hsv with heq | ⟨happN, v, hv, hvmod, hvlt, hvle⟩
        · cases hs1 : sA.saved_frame with
          | none =>
            have hs2 : sApp.saved_frame = none := heq ▸ hs1
            refine ⟨_, stepApp_dis_none toGray below writeOk n fps sApp f (h2 ▸ h0) hlf2 hb hs2, ?_⟩
            rw [stepA_dis_none toGray below writeOk n fps sA f h0 hlf hb hs1]
            exact ⟨rfl, by simp [h2], by simp [h2], by simp [h4], by simp [h5],
              Or.inl (by simp), by simp⟩
          | some sf =>
            have hs2 : sApp.saved_frame = some sf := heq ▸ hs1
            by_cases hgap : (sA.frame_number : Int) - sA.last_saved_frame_number > (fps : Int)
            · have hgap2 : (sApp.frame_number : Int) - sApp.last_saved_frame_number
                  > (fps : Int) := by
                rw [← h2, ← h3]
                exact hgap
              refine ⟨_, stepApp_dis_emit toGray below writeOk n fps sApp f (h2 ▸ h0) hlf2 hb
                hs2 hgap2 hz, ?_⟩
              rw [stepA_dis_emit toGray below writeOk n fps sA f h0 hlf hb hs1 hgap]
              exact ⟨rfl, by simp [h2], by simp [h2], by simp [h4, h2], by simp [h5, h2],
                Or.inl (by simp), by simp⟩
            · have hgap2 : ¬ ((sApp.frame_number : Int) - sApp.last_saved_frame_number
                  > (fps : Int)) := by
                rw [← h2, ← h3]
                exact hgap
              refine ⟨_, stepApp_dis_noGap toGray below writeOk n fps sApp f (h2 ▸ h0) hlf2 hb
                hs2 hgap2, ?_⟩
              rw [stepA_dis_noGap toGray below writeOk n fps sA f h0 hlf hb hs1 hgap]
              exact ⟨rfl, by simp [h2], by simp [h2], by simp [h4], by simp [h5],
                Or.inl (by simp), by simp⟩
        · have hfneq : sA.frame_number = v + n := by
            have hdvd1 : n ∣ v := Nat.dvd_of_mod_eq_zero hvmod
            have hdvd2 : n ∣ sA.frame_number := Nat.dvd_of_mod_eq_zero h0
            have hdvd3 : n ∣ (sA.frame_number - v) := Nat.dvd_sub' hdvd2 hdvd1
            have hpos : 0 < sA.frame_number - v := by omega
            have hle2 : n ≤ sA.frame_number - v := Nat.le_of_dvd hpos hdvd3
            omega
          refine ⟨_, stepApp_dis_none toGray below writeOk n fps sApp f (h2 ▸ h0) hlf2 hb happN, ?_⟩
          cases hs1 : sA.saved_frame with
          | none =>
            rw [stepA_dis_none toGray below writeOk n fps sA f h0 hlf hb hs1]
            exact ⟨rfl, by simp [h2], by simp [h2], by simp [h4], by simp [h5],
              Or.inl (by simp), by simp⟩
          | some sf =>
            have hgapF : ¬ ((sA.frame_number : Int) - sA.last_saved_frame_number
                > (fps : Int)) := by
              rw [hv, hfneq]
              push_cast
              omega
            rw [stepA_dis_noGap toGray below writeOk n fps sA f h0 hlf hb hs1 hgapF]
            exact ⟨rfl, by simp [h2], by simp [h2], by simp [h4], by simp [h5],
              Or.inl (by simp), by simp⟩
  · refine ⟨_, stepApp_not_sampled toGray below writeOk n fps sApp f (h2 ▸ h0), ?_⟩
    rw [stepA_not_sampled toGray below writeOk n fps sA f h0]
    refine ⟨by simp [h1], by simp [h2], by simp [h3], by simp [h4], by simp [h5], ?_, ?_⟩
    · rcases hsv with heq | ⟨happN, v, hv, hvmod, hvlt, hvle⟩
      · exact Or.inl (by simpa using heq)
      · refine Or.inr ⟨by simpa using happN, v, by simpa using hv, hvmod, ?_, ?_⟩
        · simp
          omega
        · have hmodvn : (v + n) % n = 0 := by
            simp [Nat.add_mod, hvmod]
          have hne : sA.frame_number ≠ v + n := by
            intro he
            exact h0 (by rw [he]; exact hmodvn)
          simp
          omega
    · intro hnone
      have : sApp.last_frame = none := by simpa using hnone
      simpa using h7 this

lemma runSim (n fps : Nat) (hn : 0 < n) (hnfps : n ≤ fps) (hz : fps ≠ 0)
    (stream : List (Option F)) :
    ∀ sA sApp : DedupState F G, SimR n sA sApp →
      ∃ s2, runApp toGray below writeOk n fps sApp stream = Except.ok s2 ∧
        SimR n (runA toGray below writeOk n fps sA stream) s2 := by
  induction stream with
  | nil => intro sA sApp h; exact ⟨sApp, rfl, h⟩
  | cons x rest ih =>
    intro sA sApp h
    cases x with
    | none => exact ⟨sApp, rfl, h⟩
    | some f =>
      obtain ⟨s2, hstep, hsim⟩ := stepSim toGray below writeOk n fps hn hnfps hz sA sApp f h
      obtain ⟨s3, hrun, hsim2⟩ := ih (stepA toGray below writeOk n fps sA f) s2 hsim
      refine ⟨s3, ?_, hsim2⟩
      simp only [runApp, hstep]
      exact hrun

end SimLemmas

/-- Claim C10 amended: the two variants need not return identical
Timelines.  For a nonzero reported fps and a stride `n ≤ fps` (which rules
out the variants' other behavioural divergences: `src/app.py` has no
zero-fps fallback, and its seed branch does not set the Candidate, which
matters only when the second sampled frame is dissimilar and `n > fps`),
the `src/app.py` run succeeds and the `src/a.py` Timeline is the
`src/app.py` Timeline either unchanged or extended by exactly one final
flush entry `(stream.length, stream.length / fps)` — an entry `src/app.py`
can never produce, since it has no post-loop flush. -/
theorem claim10_amended {F G : Type} (toGray : F → G) (below : G → G → Bool)
    (writeOk : Nat → Bool) (fps0 n : Nat) (stream : List F)
    (hn : 0 < n) (h0 : fps0 ≠ 0) (hnfps : n ≤ fps0) :
    ∃ r, extract_unique_frames_app toGray below writeOk true fps0 n (stream.map some)
        = Except.ok r ∧
      ((extract_unique_frames_a toGray below writeOk true fps0 n
          (stream.map some)).timestamps = r.timestamps ∨
        (extract_unique_frames_a toGray below writeOk true fps0 n
          (stream.map some)).timestamps
          = r.timestamps ++ [(stream.length, stream.length / fps0)]) := by
  have hfps : fpsA fps0 = fps0 := by simp [fpsA, h0]
  obtain ⟨s2, hrun, hsim⟩ := runSim toGray below writeOk n fps0 hn hnfps h0
    (stream.map some) initState initState (simR_init n)
  obtain ⟨g1, g2, g3, g4, g5, gsv, g7⟩ := hsim
  refine ⟨{ reported := false, timestamps := s2.timestamps, written := s2.written }, ?_, ?_⟩
  · have hunfold : extract_unique_frames_app toGray below writeOk true fps0 n
        (stream.map some)
        = match runApp toGray below writeOk n fps0 initState (stream.map some) with
          | Except.error e => Except.error e
          | Except.ok final =>
            Except.ok { reported := false, timestamps := final.timestamps,
                        written := final.written } := rfl
    rw [hunfold, hrun]
  · have hts : (extract_unique_frames_a toGray below writeOk true fps0 n
        (stream.map some)).timestamps
        = (flushA writeOk (fpsA fps0) (runA toGray below writeOk n (fpsA fps0) initState
            (stream.map some))).timestamps := rfl
    rw [hts, hfps]
    have hfn : (runA toGray below writeOk n fps0 initState
        (stream.map some)).frame_number = stream.length := by
      rw [runA_frame_number toGray below writeOk n fps0 stream initState]
      simp [initState]
    rcases flushA_timestamps_cases writeOk fps0
        (runA toGray below writeOk n fps0 initState (stream.map some)) with hc | hc
    · left
      rw [hc, g4]
    · right
      rw [hc, g4, hfn]

/-- Claim C10 amended, witnessed on a 33-frame constant stream at 30 fps
with stride 3: the app run succeeds and the a.py Timeline is the app
Timeline plus the flush entry `(33, 1)`. -/
theorem claim10_witness :
    ∃ r, extract_unique_frames_app id belowNe allWr true 30 3
        ((List.replicate 33 (0 : Nat)).map some) = Except.ok r ∧
      ((extract_unique_frames_a id belowNe allWr true 30 3
          ((List.replicate 33 (0 : Nat)).map some)).timestamps = r.timestamps ∨
        (extract_unique_frames_a id belowNe allWr true 30 3
          ((List.replicate 33 (0 : Nat)).map some)).timestamps
          = r.timestamps ++ [(33, 1)]) :=
  claim10_amended id belowNe allWr 30 3 (List.replicate 33 0)
    (by decide) (by decide) (by decide)

end YTPdf
